import Mathlib

/-!
Verification development for the style-expression compiler facade
(`src/style-spec/function/compile.js`), the icon quad generator
(`src/symbol/quads.js`) and the raster-DEM worker source of
mapbox-gl-js.  Pure functions are embedded as Lean functions; the
JS objects flowing through them become Lean structures, machine
numbers become `Int`/`Rat`, and fallible evaluation returns
`Except`.
-/

namespace MapboxGL

/-- JSON-compatible input values: the expression grammar's raw input
(nested arrays whose first element names an operator, JSON scalars as
literals) and the runtime value domain. Numbers are modelled as `Int`. -/
inductive JsonValue where
  | null : JsonValue
  | bool (b : Bool) : JsonValue
  | num (n : Int) : JsonValue
  | str (s : String) : JsonValue
  | arr (xs : List JsonValue) : JsonValue
  | obj (kvs : List (String × JsonValue)) : JsonValue

/-- Modelled from the spec: the value-type lattice of the Type System
(`src/style-spec/function/types.js` is not under src/): tagged variant
with `Error` as the poison type and `Value` as the unconstrained type. -/
inductive Ty where
  | null : Ty
  | boolean : Ty
  | number : Ty
  | string : Ty
  | color : Ty
  | object : Ty
  | array (itemType : Ty) (len : Option Nat) : Ty
  | value : Ty
  | error : Ty
deriving DecidableEq, Repr

/-- Modelled from the spec: `isCompatible(actual, expected)` — reflexive,
`Error` absorbing in both directions, `Value` accepts anything as the
expected type; array types compare item types and, only when both declare
a fixed length, the lengths. No implicit numeric coercion. -/
def isCompatible : Ty → Ty → Bool
  | .error, _ => true
  | _, .error => true
  | _, .value => true
  | .array a la, .array b lb =>
      isCompatible a b &&
        (match la, lb with
         | some n, some m => n == m
         | _, _ => true)
  | a, b => a == b

/-- Common item type of a list of element types: the shared type when all
elements agree, `Value` otherwise. -/
def commonType : List Ty → Ty
  | [] => .value
  | t :: rest => if rest.all (fun x => x == t) then t else .value

mutual
/-- Modelled from the spec: `typeOf(value)` for literals. -/
def typeOf : JsonValue → Ty
  | .null => .null
  | .bool _ => .boolean
  | .num _ => .number
  | .str _ => .string
  | .obj _ => .object
  | .arr xs => .array (commonType (typesOf xs)) (some xs.length)

/-- Types of a list of literal values, in order. -/
def typesOf : List JsonValue → List Ty
  | [] => []
  | v :: vs => typeOf v :: typesOf vs
end

/-- A source location: the ordered sequence of indices describing a node's
position in the original nested input, used only for diagnostics. -/
abbrev Loc := List Nat

/-- `ParsingError` — `{message, location}` (expression.js is not under src/;
shape taken from the spec's data model). -/
structure ParsingError where
  message : String
  location : Loc
deriving DecidableEq, Repr

/-- Modelled from the spec: an overload signature `{paramTypes (with an
optional variadic tail), returnType}` of the Definitions Registry. -/
structure Signature where
  paramTypes : List Ty
  variadicType : Option Ty
  returnType : Ty
deriving DecidableEq, Repr

/-- Modelled from the spec: a registry entry `{name, overloads}`. -/
structure Definition where
  name : String
  overloads : List Signature
deriving DecidableEq, Repr

/-- Modelled from the spec: the Definitions Registry
(`src/style-spec/function/definitions` is not under src/): a static,
immutable, name-keyed table of operators with ordered overload lists,
built once and never mutated. -/
def definitions : List Definition :=
  [ ⟨"+", [⟨[.number, .number], some .number, .number⟩]⟩,
    ⟨"/", [⟨[.number, .number], none, .number⟩]⟩,
    ⟨"==", [⟨[.number, .number], none, .boolean⟩,
            ⟨[.string, .string], none, .boolean⟩]⟩,
    ⟨"get", [⟨[.string], none, .value⟩]⟩,
    ⟨"at", [⟨[.number, .array .value none], none, .value⟩]⟩,
    ⟨"zoom", [⟨[], none, .number⟩]⟩,
    ⟨"geometry-type", [⟨[], none, .string⟩]⟩,
    ⟨"feature-state", [⟨[.string], none, .value⟩]⟩ ]

/-- Registry lookup by operator name. -/
def lookupDef (name : String) : Option Definition :=
  definitions.find? (fun d => d.name == name)

/-- Modelled from the spec: the typed AST (expression.js is not under
src/). Tagged variant `Literal`, `VariableReference`, `Call`, `Binding`;
each node owns a resolved `Type` and a source `Location`. -/
inductive Expr where
  | literal (ty : Ty) (loc : Loc) (value : JsonValue) : Expr
  | varRef (ty : Ty) (loc : Loc) (name : String) : Expr
  | call (ty : Ty) (loc : Loc) (op : String) (args : List Expr) : Expr
  | binding (ty : Ty) (loc : Loc) (name : String)
      (valueExpr : Expr) (bodyExpr : Expr) : Expr

/-- The resolved static type a node owns. -/
def Expr.ty : Expr → Ty
  | .literal t _ _ => t
  | .varRef t _ _ => t
  | .call t _ _ _ => t
  | .binding t _ _ _ _ => t

/-- The source location a node owns. -/
def Expr.loc : Expr → Loc
  | .literal _ l _ => l
  | .varRef _ l _ => l
  | .call _ l _ _ => l
  | .binding _ l _ _ _ => l

/-- Human-readable type names for diagnostics. -/
def typeName : Ty → String
  | .null => "Null"
  | .boolean => "Boolean"
  | .number => "Number"
  | .string => "String"
  | .color => "Color"
  | .object => "Object"
  | .value => "Value"
  | .error => "Error"
  | .array t _ => "Array<" ++ typeName t ++ ">"

/-- Diagnostic text for a type mismatch, citing expected and actual. -/
def typeMismatchMessage (expected actual : Ty) : String :=
  "Expected " ++ typeName expected ++ " but found " ++
    typeName actual ++ " instead."

/-- Does a signature's arity admit `n` arguments? A variadic tail matches
zero or more trailing arguments. -/
def lengthMatches (sig : Signature) (n : Nat) : Bool :=
  match sig.variadicType with
  | none => sig.paramTypes.length == n
  | some _ => sig.paramTypes.length ≤ n

/-- The per-argument expected types a signature imposes on `n` arguments:
the declared parameters followed by copies of the variadic tail type. -/
def expectedArgTypes (sig : Signature) (n : Nat) : List Ty :=
  sig.paramTypes ++
    (match sig.variadicType with
     | none => []
     | some t => List.replicate (n - sig.paramTypes.length) t)

/-- Does a signature match the given argument types (arity and
per-parameter compatibility)? -/
def sigMatches (sig : Signature) (argTypes : List Ty) : Bool :=
  lengthMatches sig argTypes.length &&
    (List.zip argTypes (expectedArgTypes sig argTypes.length)).all
      (fun p => isCompatible p.1 p.2)

/-- Modelled from the spec: overload resolution — the first listed
signature whose parameter types are all compatible with the argument
count and types; declaration order wins ties. -/
def resolveOverload (overloads : List Signature) (argTypes : List Ty) :
    Option Signature :=
  overloads.find? (fun s => sigMatches s argTypes)

/-- Diagnostic text for an arity error: names the operator, the expected
arity of each listed signature, and the given count. -/
def arityMessage (op : String) (overloads : List Signature) (given : Nat) :
    String :=
  "Expected " ++
    String.intercalate " or "
      (overloads.map fun s =>
        toString s.paramTypes.length ++
          (match s.variadicType with
           | some _ => " or more"
           | none => "")) ++
    " arguments for \"" ++ op ++ "\", but found " ++ toString given ++ "."

/-- First argument incompatible with its expected parameter type, paired
with that expected type. -/
def firstMismatch : List Expr → List Ty → Option (Expr × Ty)
  | a :: as, t :: ts =>
      if isCompatible a.ty t then firstMismatch as ts else some (a, t)
  | _, _ => none

/-- Modelled from the spec: the diagnostic produced when no overload
matches — an arity error (at the operator position) when no signature has
a matching arity, otherwise a type-mismatch error citing expected vs.
actual type at the offending argument's location. -/
def overloadError (op : String) (overloads : List Signature)
    (args : List Expr) (opLoc : Loc) : ParsingError :=
  match overloads.find? (fun s => lengthMatches s args.length) with
  | none => ⟨arityMessage op overloads args.length, opLoc⟩
  | some sig =>
      match firstMismatch args (expectedArgTypes sig args.length) with
      | some p => ⟨typeMismatchMessage p.2 p.1.ty, p.1.loc⟩
      | none => ⟨"Unresolvable overload for \"" ++ op ++ "\".", opLoc⟩

/-- Diagnostic for input that is neither an expression array nor a literal. -/
def structuralMessage : String :=
  "Expected an expression array or literal."

/-- Diagnostic for an unknown operator name. -/
def unknownOpMessage (op : String) : String :=
  "Unknown expression \"" ++ op ++ "\"."

/-- Diagnostic for a malformed let-like binding form. -/
def letFormMessage : String :=
  "Invalid binding form: expected a name, a value and a body."

/-- Diagnostic for a malformed explicit literal-escape form. -/
def literalFormMessage : String :=
  "Invalid literal form: expected exactly one value."

/-- A lexical scope: stack of name-to-type bindings, innermost first. -/
abbrev Scope := List (String × Ty)

/-- Innermost binding of a name in scope, if any. -/
def lookupScope (scope : Scope) (n : String) : Option Ty :=
  (scope.find? (fun p => p.1 == n)).map (·.2)

mutual
/-- Modelled from the spec: `parse(node, expectedType, scope)` of the
Parser (`parse_expression.js` is not under src/): recursive descent over
the JSON-like input, consulting the Definitions Registry, accumulating
diagnostics. Returns the parsed node (or none when this subtree failed)
together with the ordered errors this subtree appended to the shared
error list. After parsing, an incompatible supplied `expectedType`
appends a type error citing both types. -/
def parseExpression (v : JsonValue) (loc : Loc) (scope : Scope)
    (expected : Option Ty) : Option Expr × List ParsingError :=
  match parseNode v loc scope with
  | (none, es) => (none, es)
  | (some e, es) =>
      match expected with
      | none => (some e, es)
      | some exp =>
          if isCompatible e.ty exp then (some e, es)
          else (none, es ++ [⟨typeMismatchMessage exp e.ty, loc⟩])
termination_by (sizeOf v, 1)

/-- Dispatch on the input's shape: scalar literals, bare names bound in
scope, the literal-escape form, let-like binding forms, operator calls,
and the structural-error fallback. -/
def parseNode (v : JsonValue) (loc : Loc) (scope : Scope) :
    Option Expr × List ParsingError :=
  match v with
  | .null => (some (.literal .null loc .null), [])
  | .bool b => (some (.literal .boolean loc (.bool b)), [])
  | .num n => (some (.literal .number loc (.num n)), [])
  | .str s =>
      match lookupScope scope s with
      | some t => (some (.varRef t loc s), [])
      | none => (some (.literal .string loc (.str s)), [])
  | .obj _ => (none, [⟨structuralMessage, loc⟩])
  | .arr [] => (none, [⟨structuralMessage, loc⟩])
  | .arr (.str op :: rawArgs) =>
      if op == "literal" then
        match rawArgs with
        | [w] => (some (.literal (typeOf w) loc w), [])
        | _ => (none, [⟨literalFormMessage, loc⟩])
      else if op == "let" then
        match rawArgs with
        | [.str n, vRaw, bRaw] =>
            match parseExpression vRaw (loc ++ [2]) scope none with
            | (none, es1) =>
                -- surface the body's errors too, binding the name to the
                -- poison type so its references still resolve
                let (_, es2) :=
                  parseExpression bRaw (loc ++ [3]) ((n, .error) :: scope) none
                (none, es1 ++ es2)
            | (some ve, es1) =>
                match parseExpression bRaw (loc ++ [3])
                    ((n, ve.ty) :: scope) none with
                | (none, es2) => (none, es1 ++ es2)
                | (some be, es2) =>
                    (some (.binding be.ty loc n ve be), es1 ++ es2)
        | _ => (none, [⟨letFormMessage, loc⟩])
      else
        match lookupDef op with
        | none => (none, [⟨unknownOpMessage op, loc ++ [0]⟩])
        | some defn =>
            match parseArgs rawArgs loc 1 scope with
            | (none, es1) => (none, es1)
            | (some args, es1) =>
                match resolveOverload defn.overloads (args.map Expr.ty) with
                | some sig => (some (.call sig.returnType loc op args), es1)
                | none =>
                    (none,
                      es1 ++ [overloadError op defn.overloads args (loc ++ [0])])
  | .arr (_ :: _) => (none, [⟨structuralMessage, loc ++ [0]⟩])
termination_by (sizeOf v, 0)

/-- Parse the arguments of a call in order, position `i` onward; every
sibling is parsed even after a failure so all diagnostics are surfaced in
one pass, and the argument list is produced only when every argument
parsed. -/
def parseArgs (vs : List JsonValue) (loc : Loc) (i : Nat) (scope : Scope) :
    Option (List Expr) × List ParsingError :=
  match vs with
  | [] => (some [], [])
  | v :: rest =>
      match parseExpression v (loc ++ [i]) scope none with
      | (none, es1) =>
          let (_, es2) := parseArgs rest loc (i + 1) scope
          (none, es1 ++ es2)
      | (some e, es1) =>
          match parseArgs rest loc (i + 1) scope with
          | (none, es2) => (none, es1 ++ es2)
          | (some es, es2) => (some (e :: es), es1 ++ es2)
termination_by (sizeOf vs, 2)
end

/-- A runtime fault `{message, location}`: returned, never thrown, from
`evaluate`, carrying the same `Location` used at parse time. -/
structure EvalError where
  message : String
  location : Loc
deriving DecidableEq, Repr

/-- `RuntimeContext` — read-only view of zoom, feature properties,
geometry type and feature state, constructed per (feature, zoom) pair. -/
structure RuntimeContext where
  zoom : Int
  properties : List (String × JsonValue)
  geometryType : String
  featureState : List (String × JsonValue)

/-- Key lookup in a string-keyed association list. -/
def lookupKey (kvs : List (String × JsonValue)) (k : String) :
    Option JsonValue :=
  (kvs.find? (fun p => p.1 == k)).map (·.2)

/-- Runtime shape check: the value must be a number. -/
def asNumber (v : JsonValue) (loc : Loc) : Except EvalError Int :=
  match v with
  | .num n => .ok n
  | _ => .error ⟨"Expected a Number at runtime.", loc⟩

/-- Sum a list of runtime values, each required to be a number. -/
def sumNumbers (vals : List JsonValue) (loc : Loc) : Except EvalError Int :=
  match vals with
  | [] => .ok 0
  | v :: rest =>
      match asNumber v loc with
      | .error err => .error err
      | .ok n =>
          match sumNumbers rest loc with
          | .error err => .error err
          | .ok m => .ok (n + m)

/-- Modelled from the spec: the single-operator evaluation rules of the
Compiler/Evaluator (`evaluation_context.js` and `CompilationContext` are
not under src/). Every runtime anomaly — absent property, value of
unexpected runtime shape, array index out of range, degenerate division —
is converted into an `EvalError` carrying the parse-time location. -/
def applyOp (op : String) (vals : List JsonValue) (loc : Loc)
    (ctx : RuntimeContext) : Except EvalError JsonValue :=
  if op == "+" then
    (sumNumbers vals loc).map (fun n => .num n)
  else if op == "/" then
    match vals with
    | [a, b] =>
        match asNumber a loc with
        | .error err => .error err
        | .ok x =>
            match asNumber b loc with
            | .error err => .error err
            | .ok y =>
                if y == 0 then .error ⟨"Division by zero.", loc⟩
                else .ok (.num (x / y))
    | _ => .error ⟨"Malformed arguments for \"/\".", loc⟩
  else if op == "==" then
    match vals with
    | [.num a, .num b] => .ok (.bool (a == b))
    | [.str a, .str b] => .ok (.bool (a == b))
    | _ => .error ⟨"Malformed arguments for \"==\".", loc⟩
  else if op == "get" then
    match vals with
    | [.str k] =>
        match lookupKey ctx.properties k with
        | some v => .ok v
        | none => .error ⟨"Property \"" ++ k ++ "\" not found.", loc⟩
    | _ => .error ⟨"Malformed arguments for \"get\".", loc⟩
  else if op == "at" then
    match vals with
    | [.num i, .arr xs] =>
        if i < 0 then .error ⟨"Array index out of bounds.", loc⟩
        else
          match xs.get? i.toNat with
          | some v => .ok v
          | none => .error ⟨"Array index out of bounds.", loc⟩
    | _ => .error ⟨"Malformed arguments for \"at\".", loc⟩
  else if op == "zoom" then
    .ok (.num ctx.zoom)
  else if op == "geometry-type" then
    .ok (.str ctx.geometryType)
  else if op == "feature-state" then
    match vals with
    | [.str k] =>
        match lookupKey ctx.featureState k with
        | some v => .ok v
        | none => .error ⟨"Feature state \"" ++ k ++ "\" not found.", loc⟩
    | _ => .error ⟨"Malformed arguments for \"feature-state\".", loc⟩
  else
    .error ⟨"Unknown operation \"" ++ op ++ "\".", loc⟩

mutual
/-- Modelled from the spec: `evaluate` over a `RuntimeContext` plus the
runtime environment of let-bound values. Total: every node kind has a
rule; a parent aborts on the first child `EvalError` and forwards it
unchanged. -/
def evaluateExpr (e : Expr) (ctx : RuntimeContext)
    (env : List (String × JsonValue)) : Except EvalError JsonValue :=
  match e with
  | .literal _ _ v => .ok v
  | .varRef _ loc n =>
      match lookupKey env n with
      | some v => .ok v
      | none => .error ⟨"Unbound variable \"" ++ n ++ "\".", loc⟩
  | .binding _ _ n ve be =>
      match evaluateExpr ve ctx env with
      | .error err => .error err
      | .ok v => evaluateExpr be ctx ((n, v) :: env)
  | .call _ loc op args =>
      match evalArgs args ctx env with
      | .error err => .error err
      | .ok vals => applyOp op vals loc ctx

/-- Evaluate a call's arguments left to right, short-circuiting on the
first `EvalError`. -/
def evalArgs (es : List Expr) (ctx : RuntimeContext)
    (env : List (String × JsonValue)) : Except EvalError (List JsonValue) :=
  match es with
  | [] => .ok []
  | e :: rest =>
      match evaluateExpr e ctx env with
      | .error err => .error err
      | .ok v =>
          match evalArgs rest ctx env with
          | .error err => .error err
          | .ok vs => .ok (v :: vs)
end

/-- Operators documented as zoom-dependent. -/
def zoomOps : List String := ["zoom"]

/-- Operators that access feature-property, geometry-type or
feature-state data. -/
def featureOps : List String := ["get", "geometry-type", "feature-state"]

mutual
/-- Modelled from the spec: the Classifier's `isZoomConstant`
(`is_constant.js` is not under src/): pure structural recursion, false
iff some reachable subtree is a zoom-dependent operator call. -/
def isZoomConstant : Expr → Bool
  | .literal _ _ _ => true
  | .varRef _ _ _ => true
  | .binding _ _ _ ve be => isZoomConstant ve && isZoomConstant be
  | .call _ _ op args => !(zoomOps.contains op) && allZoomConstant args

/-- `isZoomConstant` over an argument list. -/
def allZoomConstant : List Expr → Bool
  | [] => true
  | e :: rest => isZoomConstant e && allZoomConstant rest
end

mutual
/-- Modelled from the spec: the Classifier's `isFeatureConstant`
(`is_constant.js` is not under src/): pure structural recursion, false
iff some reachable subtree accesses feature data. -/
def isFeatureConstant : Expr → Bool
  | .literal _ _ _ => true
  | .varRef _ _ _ => true
  | .binding _ _ _ ve be => isFeatureConstant ve && isFeatureConstant be
  | .call _ _ op args => !(featureOps.contains op) && allFeatureConstant args

/-- `isFeatureConstant` over an argument list. -/
def allFeatureConstant : List Expr → Bool
  | [] => true
  | e :: rest => isFeatureConstant e && allFeatureConstant rest
end

mutual
/-- All reachable subtrees of an expression, the node itself first. -/
def subexprs : Expr → List Expr
  | .literal t l v => [.literal t l v]
  | .varRef t l n => [.varRef t l n]
  | .binding t l n ve be => .binding t l n ve be :: (subexprs ve ++ subexprs be)
  | .call t l op args => .call t l op args :: subexprsList args

/-- All reachable subtrees of a list of expressions, in order. -/
def subexprsList : List Expr → List Expr
  | [] => []
  | e :: rest => subexprs e ++ subexprsList rest
end

/-- Is this node itself a zoom-dependent operator call? -/
def isZoomRefNode : Expr → Bool
  | .call _ _ op _ => zoomOps.contains op
  | _ => false

/-- Is this node itself a feature-data accessor call? -/
def isFeatureRefNode : Expr → Bool
  | .call _ _ op _ => featureOps.contains op
  | _ => false

/-- The literal value denoted by an input that is a literal expression:
a JSON scalar, or the explicit literal-escape form `["literal", v]`. -/
def literalValueOf : JsonValue → Option JsonValue
  | .null => some .null
  | .bool b => some (.bool b)
  | .num n => some (.num n)
  | .str s => some (.str s)
  | .arr xs =>
      match xs with
      | [.str s, w] => if s == "literal" then some w else none
      | _ => none
  | .obj _ => none

/-- Modelled from the spec: the shared, evaluator-independent support
payload (`CompilationContext.getPrelude()` is not under src/), a fixed
source string reusable across compiled expressions. -/
def preludeSource : String := "var $globalProperties, $feature;"

/-- The discriminated union returned by `compileExpression`:
`{result: 'success', function, functionSource, isFeatureConstant,
isZoomConstant, expression}` or `{result: 'error', errors}`
(compile.js lines 21–33). -/
inductive CompileResult where
  | success
      (function : RuntimeContext → Except EvalError JsonValue)
      (functionSource : String)
      (isFeatureConstantFlag : Bool)
      (isZoomConstantFlag : Bool)
      (expression : Expr) : CompileResult
  | failure (errors : List ParsingError) : CompileResult

/-- `compileExpression(expr, expectedType)` (compile.js lines 57–82):
parse with a fresh `ParsingContext`; when no expression was produced the
accumulated errors are returned (the source asserts the list is
non-empty); otherwise compile to a function and package it with the
prelude, the two constancy flags and the parsed expression. -/
def compileExpression (expr : JsonValue) (expectedType : Option Ty) :
    CompileResult :=
  match parseExpression expr [] [] expectedType with
  | (none, errs) => .failure errs
  | (some parsed, _) =>
      .success (fun ctx => evaluateExpr parsed ctx []) preludeSource
        (isFeatureConstant parsed) (isZoomConstant parsed) parsed

/-- Is the result the success variant? -/
def CompileResult.isSuccessB : CompileResult → Bool
  | .success _ _ _ _ _ => true
  | .failure _ => false

/-- Is the result the failure variant? -/
def CompileResult.isErrorB : CompileResult → Bool
  | .success _ _ _ _ _ => false
  | .failure _ => true

/-- The error list carried by the result, if the failure variant. -/
def CompileResult.errorsOf : CompileResult → Option (List ParsingError)
  | .success _ _ _ _ _ => none
  | .failure errs => some errs

/-- The parsed expression carried by the result, if the success variant. -/
def CompileResult.expressionOf : CompileResult → Option Expr
  | .success _ _ _ _ ex => some ex
  | .failure _ => none

/-- The resolved static type carried by the result (on the parsed
expression), if the success variant. -/
def CompileResult.resultType : CompileResult → Option Ty
  | .success _ _ _ _ ex => some ex.ty
  | .failure _ => none

/-- The `isFeatureConstant` flag carried by the result, if successful. -/
def CompileResult.featureFlag : CompileResult → Option Bool
  | .success _ _ ifc _ _ => some ifc
  | .failure _ => none

/-- The `isZoomConstant` flag carried by the result, if successful. -/
def CompileResult.zoomFlag : CompileResult → Option Bool
  | .success _ _ _ izc _ => some izc
  | .failure _ => none

/-- Apply the carried evaluator at a context, if the success variant. -/
def CompileResult.evalAt : CompileResult → RuntimeContext →
    Option (Except EvalError JsonValue)
  | .success f _ _ _ _, ctx => some (f ctx)
  | .failure _, _ => none

/-- A 2D point of the external point-geometry library, over exact
rationals. -/
structure Point where
  x : ℚ
  y : ℚ
deriving DecidableEq, Repr

/-- `Point#_matMult([m0, m1, m2, m3])` of point-geometry:
`(m0*x + m1*y, m2*x + m3*y)`. -/
def Point.matMult (m : ℚ × ℚ × ℚ × ℚ) (p : Point) : Point :=
  ⟨m.1 * p.x + m.2.1 * p.y, m.2.2.1 * p.x + m.2.2.2 * p.y⟩

/-- A texture rectangle `{x, y, w, h}` (quads.js lines 35–40). -/
structure TexRect where
  x : ℚ
  y : ℚ
  w : ℚ
  h : ℚ
deriving DecidableEq, Repr

/-- The image a positioned icon references: its pixel ratio and atlas
texture rectangle (external input to `getIconQuads`). -/
structure IconImage where
  pixelRatio : ℚ
  textureRect : TexRect

/-- `PositionedIcon` (shaping, external input): the shaped icon's extents
and image. -/
structure PositionedIcon where
  image : IconImage
  top : ℚ
  bottom : ℚ
  left : ℚ
  right : ℚ

/-- The layout properties `getIconQuads` reads from the style layer
(external input): `icon-text-fit`, `text-size` and the four
`icon-text-fit-padding` entries (top, right, bottom, left). -/
structure IconLayout where
  iconTextFit : String
  textSize : ℚ
  padT : ℚ
  padR : ℚ
  padB : ℚ
  padL : ℚ

/-- The shaped-text extents consulted in text-fit mode (external input;
JS falsiness of `shapedText` is modelled by `Option`). -/
structure Shaping where
  top : ℚ
  bottom : ℚ
  left : ℚ
  right : ℚ

/-- `SymbolQuad` (quads.js lines 30–43): a textured quad for rendering a
single icon or glyph. `writingMode` is `undefined` for icons, modelled as
an `Option` that is `none`. -/
structure SymbolQuad where
  tl : Point
  tr : Point
  bl : Point
  br : Point
  tex : TexRect
  writingMode : Option Nat
  glyphOffset : ℚ × ℚ

/-- `getIconQuads` (quads.js lines 49–123). The `icon-rotate` layout
value arrives through the external `layer.getLayoutValue`, modelled as
the input `iconRotate` (in degrees; the JS `if (angle)` guard is nonzero
rotation); the transcendental `Math.sin`/`Math.cos` of the rotation angle
are modelled as the inputs `sinA` and `cosA`. -/
def getIconQuads (shapedIcon : PositionedIcon) (layout : IconLayout)
    (shapedText : Option Shaping) (iconRotate : ℚ) (sinA cosA : ℚ) :
    List SymbolQuad :=
  let image := shapedIcon.image
  let border : ℚ := 1
  let top := shapedIcon.top - border / image.pixelRatio
  let left := shapedIcon.left - border / image.pixelRatio
  let bottom := shapedIcon.bottom + border / image.pixelRatio
  let right := shapedIcon.right + border / image.pixelRatio
  let normal : Point × Point × Point × Point :=
    (⟨left, top⟩, ⟨right, top⟩, ⟨right, bottom⟩, ⟨left, bottom⟩)
  let corners :=
    match shapedText with
    | some st =>
        if layout.iconTextFit ≠ "none" then
          let iconWidth := right - left
          let iconHeight := bottom - top
          let size := layout.textSize / 24
          let textLeft := st.left * size
          let textRight := st.right * size
          let textTop := st.top * size
          let textBottom := st.bottom * size
          let textWidth := textRight - textLeft
          let textHeight := textBottom - textTop
          let offsetY := if layout.iconTextFit = "width" then
              (textHeight - iconHeight) * (1/2 : ℚ) else 0
          let offsetX := if layout.iconTextFit = "height" then
              (textWidth - iconWidth) * (1/2 : ℚ) else 0
          let width := if layout.iconTextFit = "width" ∨ layout.iconTextFit = "both"
              then textWidth else iconWidth
          let height := if layout.iconTextFit = "height" ∨ layout.iconTextFit = "both"
              then textHeight else iconHeight
          (Point.mk (textLeft + offsetX - layout.padL)
             (textTop + offsetY - layout.padT),
           Point.mk (textLeft + offsetX + layout.padR + width)
             (textTop + offsetY - layout.padT),
           Point.mk (textLeft + offsetX + layout.padR + width)
             (textTop + offsetY + layout.padB + height),
           Point.mk (textLeft + offsetX - layout.padL)
             (textTop + offsetY + layout.padB + height))
        else normal
    | none => normal
  let (tl0, tr0, br0, bl0) := corners
  let (tl1, tr1, br1, bl1) :=
    if iconRotate = 0 then (tl0, tr0, br0, bl0)
    else
      let m : ℚ × ℚ × ℚ × ℚ := (cosA, -sinA, sinA, cosA)
      (tl0.matMult m, tr0.matMult m, br0.matMult m, bl0.matMult m)
  let textureRect : TexRect :=
    ⟨image.textureRect.x - border, image.textureRect.y - border,
     image.textureRect.w + border * 2, image.textureRect.h + border * 2⟩
  [⟨tl1, tr1, bl1, br1, textureRect, none, (0, 0)⟩]

/-- `DEMData` (src/data/dem_data.js is not under src/): modelled opaquely
by the uid passed to its constructor; its internals are irrelevant to the
worker source's bookkeeping. -/
structure DEMData where
  uid : String
deriving DecidableEq, Repr

/-- A per-source map from tile uid to its DEM (`{[string]: DEMData}`). -/
abbrev TileMap := String → Option DEMData

/-- The two-level `{[source]: {[uid]: DEMData}}` maps of the worker. -/
abbrev SourceMap := String → Option TileMap

/-- Update one key of a tile map (`none` models `delete`). -/
def setTile (m : TileMap) (k : String) (v : Option DEMData) : TileMap :=
  fun k2 => if k2 = k then v else m k2

/-- Update one key of a source map. -/
def setSource (m : SourceMap) (k : String) (v : Option TileMap) : SourceMap :=
  fun k2 => if k2 = k then v else m k2

/-- The empty tile map (`{}`). -/
def emptyTileMap : TileMap := fun _ => none

/-- Lookup `m[source][uid]`. -/
def lookupTile (m : SourceMap) (source uid : String) : Option DEMData :=
  match m source with
  | none => none
  | some inner => inner uid

/-- `RasterDEMTileWorkerSource` state: its `loading` and `loaded` maps
(unnamed worker source, lines 11–20). -/
structure RasterDEMTileWorkerSource where
  loading : SourceMap
  loaded : SourceMap

/-- Result of `loadTile`: the new state plus the error argument of each
callback invocation, in order (`none` is JS `null`). -/
structure LoadTileResult where
  state : RasterDEMTileWorkerSource
  callbackErrs : List (Option String)

/-- `loadTile` (unnamed worker source, lines 23–43): ensure
`loading[source]` exists, insert the new `DEMData` under `uid`, load it
from the raw image (internal to `DEMData`, not modelled), delete it from
`loading[source]` again, insert it into `loaded[source]` (creating the
inner map if needed), and invoke the callback once with a null error. -/
def loadTile (st : RasterDEMTileWorkerSource) (source uid : String) :
    LoadTileResult :=
  let loading0 :=
    match st.loading source with
    | none => setSource st.loading source (some emptyTileMap)
    | some _ => st.loading
  let dem : DEMData := ⟨uid⟩
  let inner0 := (loading0 source).getD emptyTileMap
  let loading1 := setSource loading0 source (some (setTile inner0 uid (some dem)))
  let inner1 := (loading1 source).getD emptyTileMap
  let loading2 := setSource loading1 source (some (setTile inner1 uid none))
  let loadedInner := (st.loaded source).getD emptyTileMap
  let loaded1 := setSource st.loaded source (some (setTile loadedInner uid (some dem)))
  ⟨⟨loading2, loaded1⟩, [none]⟩

/-- `removeTile` (unnamed worker source, lines 45–51): delete
`loaded[source][uid]` when present; otherwise change nothing. -/
def removeTile (st : RasterDEMTileWorkerSource) (source uid : String) :
    RasterDEMTileWorkerSource :=
  match st.loaded source with
  | none => st
  | some inner =>
      if (inner uid).isSome then
        { st with loaded := setSource st.loaded source (some (setTile inner uid none)) }
      else st

/-- A concrete worker state for the C10 witness: source "a" has tile "1"
loaded and nothing is loading. -/
def demoState : RasterDEMTileWorkerSource :=
  ⟨fun _ => none,
   fun s => if s = "a" then
      some (fun u => if u = "1" then some ⟨"1"⟩ else none)
    else none⟩


/-- Parser invariant: a subtree produces an expression exactly when it
appended no error to the shared list (so a failed subtree always left at
least one diagnostic behind). -/
theorem parseExpression_inv (v : JsonValue) (loc : Loc) (scope : Scope)
    (expected : Option Ty) :
    (parseExpression v loc scope expected).1.isSome ↔
      (parseExpression v loc scope expected).2 = [] := by
  apply parseExpression.induct
    (fun v loc scope expected =>
      (parseExpression v loc scope expected).1.isSome ↔
        (parseExpression v loc scope expected).2 = [])
    (fun v loc scope =>
      (parseNode v loc scope).1.isSome ↔ (parseNode v loc scope).2 = [])
    (fun vs loc i scope =>
      (parseArgs vs loc i scope).1.isSome ↔ (parseArgs vs loc i scope).2 = [])
  all_goals intros
  all_goals simp_all [parseExpression, parseNode, parseArgs]
  all_goals (rw [parseNode.eq_def]; simp_all)

/-- C1: for every input value and optional expected type,
`compileExpression` returns exactly one variant of the discriminated
union — a success record (carrying no error list) or a failure record
carrying the parsing errors and none of the success fields. -/
theorem compileExpression_returns_one_variant (e : JsonValue) (t : Option Ty) :
    ((compileExpression e t).isSuccessB = true ∧
      (compileExpression e t).isErrorB = false ∧
      (compileExpression e t).errorsOf = none) ∨
    ((compileExpression e t).isSuccessB = false ∧
      (compileExpression e t).isErrorB = true ∧
      (∃ errs : List ParsingError, (compileExpression e t).errorsOf = some errs) ∧
      (compileExpression e t).resultType = none ∧
      (compileExpression e t).featureFlag = none ∧
      (compileExpression e t).zoomFlag = none ∧
      ∀ ctx, (compileExpression e t).evalAt ctx = none) := by
  cases hc : compileExpression e t <;>
    simp [CompileResult.isSuccessB, CompileResult.isErrorB, CompileResult.errorsOf,
      CompileResult.resultType, CompileResult.featureFlag, CompileResult.zoomFlag,
      CompileResult.evalAt]

/-- C2: whenever compilation succeeds, the result carries the four
components — the evaluator, the `isZoomConstant` and `isFeatureConstant`
flags, and (on the packaged expression node) the resolved static type. -/
theorem compileExpression_success_components (e : JsonValue) (t : Option Ty)
    (h : (compileExpression e t).isSuccessB = true) :
    ∃ ex : Expr,
      (compileExpression e t).expressionOf = some ex ∧
      (compileExpression e t).resultType = some ex.ty ∧
      (compileExpression e t).featureFlag = some (isFeatureConstant ex) ∧
      (compileExpression e t).zoomFlag = some (isZoomConstant ex) ∧
      ∀ ctx, (compileExpression e t).evalAt ctx = some (evaluateExpr ex ctx []) := by
  cases hp : parseExpression e [] [] t with
  | mk r errs =>
      cases r with
      | none => simp [compileExpression, hp, CompileResult.isSuccessB] at h
      | some parsed =>
          refine ⟨parsed, ?_⟩
          simp [compileExpression, hp, CompileResult.expressionOf,
            CompileResult.resultType, CompileResult.featureFlag,
            CompileResult.zoomFlag, CompileResult.evalAt]

/-- Witness for C2 at the concrete literal input `3`. -/
theorem compileExpression_success_components_witness :
    ∃ ex : Expr,
      (compileExpression (.num 3) none).expressionOf = some ex ∧
      (compileExpression (.num 3) none).resultType = some ex.ty ∧
      (compileExpression (.num 3) none).featureFlag = some (isFeatureConstant ex) ∧
      (compileExpression (.num 3) none).zoomFlag = some (isZoomConstant ex) ∧
      ∀ ctx, (compileExpression (.num 3) none).evalAt ctx =
        some (evaluateExpr ex ctx []) :=
  compileExpression_success_components (.num 3) none
    (by simp [compileExpression, parseExpression, parseNode, CompileResult.isSuccessB])

/-- C3: the facade returns the success variant iff the parser's
accumulated error list is empty; when parsing fails to produce an
expression the error list is non-empty (the failure-branch assertion
never fires), and only the error list is returned. -/
theorem compileExpression_success_iff_errors_empty (e : JsonValue) (t : Option Ty) :
    ((compileExpression e t).isSuccessB = true ↔ (parseExpression e [] [] t).2 = []) ∧
    ((parseExpression e [] [] t).1 = none → (parseExpression e [] [] t).2 ≠ []) ∧
    ((parseExpression e [] [] t).1 = none →
      (compileExpression e t).errorsOf = some ((parseExpression e [] [] t).2)) := by
  have hinv := parseExpression_inv e [] [] t
  cases hp : parseExpression e [] [] t with
  | mk r errs =>
      rw [hp] at hinv
      cases r <;>
        simp_all [compileExpression, hp, CompileResult.isSuccessB,
          CompileResult.errorsOf]

/-- Witness for C3 at the concrete failing input `["unknownOp", 1]`. -/
theorem compileExpression_success_iff_errors_empty_witness :
    (parseExpression (.arr [.str "unknownOp", .num 1]) [] [] none).2 ≠ [] :=
  (compileExpression_success_iff_errors_empty (.arr [.str "unknownOp", .num 1]) none).2.1
    (by simp [parseExpression, parseNode, parseArgs, lookupDef, definitions])

/-- C4: compilation and evaluation are deterministic — two results of
compiling the same input agree on the resolved type, both constancy
flags, and the evaluator's output at every `RuntimeContext`. -/
theorem compileExpression_deterministic (e : JsonValue) (t : Option Ty)
    (r1 r2 : CompileResult)
    (h1 : r1 = compileExpression e t) (h2 : r2 = compileExpression e t) :
    r1.resultType = r2.resultType ∧
    r1.zoomFlag = r2.zoomFlag ∧
    r1.featureFlag = r2.featureFlag ∧
    ∀ ctx, r1.evalAt ctx = r2.evalAt ctx := by
  subst h1; subst h2
  exact ⟨rfl, rfl, rfl, fun _ => rfl⟩

/-- Every error `asNumber` returns carries the supplied location. -/
theorem asNumber_error_loc (v : JsonValue) (loc : Loc) (err : EvalError)
    (h : asNumber v loc = .error err) : err.location = loc := by
  cases v
  case num => simp [asNumber] at h
  all_goals
    simp only [asNumber, Except.error.injEq] at h
    subst h
    rfl

/-- Every error `sumNumbers` returns carries the supplied location. -/
theorem sumNumbers_error_loc (vals : List JsonValue) (loc : Loc) (err : EvalError)
    (h : sumNumbers vals loc = .error err) : err.location = loc := by
  induction vals with
  | nil => simp [sumNumbers] at h
  | cons v rest ih =>
      simp only [sumNumbers] at h
      cases hv : asNumber v loc with
      | error e =>
          rw [hv] at h
          simp only [Except.error.injEq] at h
          subst h
          exact asNumber_error_loc v loc _ hv
      | ok n =>
          rw [hv] at h
          cases hr : sumNumbers rest loc with
          | error e2 =>
              rw [hr] at h
              simp only [Except.error.injEq] at h
              subst h
              exact ih hr
          | ok m => rw [hr] at h; simp at h

/-- Every error `applyOp` returns carries the call node's parse-time
location. -/
theorem applyOp_error_loc (op : String) (vals : List JsonValue) (loc : Loc)
    (ctx : RuntimeContext) (err : EvalError)
    (h : applyOp op vals loc ctx = .error err) : err.location = loc := by
  unfold applyOp at h
  split_ifs at h
  case _ =>
    cases hs : sumNumbers vals loc with
    | error e =>
        rw [hs] at h
        simp [Except.map] at h
        subst h
        exact sumNumbers_error_loc vals loc _ hs
    | ok n => rw [hs] at h; simp [Except.map] at h
  all_goals (repeat' split at h)
  all_goals (try (cases h; rfl))
  all_goals (try simp_all)
  all_goals (rename_i heq; cases h; exact asNumber_error_loc _ _ _ heq)

/-- Every error `evaluateExpr` returns carries the parse-time location
of one of the evaluated node's subtrees. -/
theorem evaluateExpr_error_location (e : Expr) (ctx : RuntimeContext)
    (env : List (String × JsonValue)) :
    ∀ err : EvalError, evaluateExpr e ctx env = .error err →
      err.location ∈ (subexprs e).map Expr.loc := by
  apply evaluateExpr.induct
    (fun e ctx env => ∀ err : EvalError, evaluateExpr e ctx env = .error err →
      err.location ∈ (subexprs e).map Expr.loc)
    (fun es ctx env => ∀ err : EvalError, evalArgs es ctx env = .error err →
      err.location ∈ (subexprsList es).map Expr.loc)
  all_goals intros
  all_goals try simp_all [evaluateExpr, evalArgs, subexprs, subexprsList]
  all_goals first
    | (rename_i h1; cases h1; rfl)
    | (rename_i herr; exact Or.inl (applyOp_error_loc _ _ _ _ _ herr))

/-- C5: evaluation is total (it always returns an `ok` value or an
`EvalError`, never an uncaught fault): a call node forwards its argument
list's `EvalError` unchanged, argument evaluation short-circuits on the
first erroring child, a let-binding forwards its bound value's error
unchanged, and every returned `EvalError` carries the parse-time
location of one of the evaluated node's subtrees. -/
theorem evaluateExpr_total_and_forwards_errors :
    (∀ (ty : Ty) (loc : Loc) (op : String) (args : List Expr)
        (ctx : RuntimeContext) (env : List (String × JsonValue))
        (err : EvalError),
      evalArgs args ctx env = .error err →
        evaluateExpr (.call ty loc op args) ctx env = .error err) ∧
    (∀ (a : Expr) (rest : List Expr) (ctx : RuntimeContext)
        (env : List (String × JsonValue)) (err : EvalError),
      evaluateExpr a ctx env = .error err →
        evalArgs (a :: rest) ctx env = .error err) ∧
    (∀ (ty : Ty) (loc : Loc) (n : String) (ve be : Expr)
        (ctx : RuntimeContext) (env : List (String × JsonValue))
        (err : EvalError),
      evaluateExpr ve ctx env = .error err →
        evaluateExpr (.binding ty loc n ve be) ctx env = .error err) ∧
    (∀ (e : Expr) (ctx : RuntimeContext) (env : List (String × JsonValue))
        (err : EvalError),
      evaluateExpr e ctx env = .error err →
        err.location ∈ (subexprs e).map Expr.loc) := by
  refine ⟨?_, ?_, ?_, ?_⟩
  · intro ty loc op args ctx env err h
    rw [evaluateExpr.eq_def]
    simp [h]
  · intro a rest ctx env err h
    rw [evalArgs.eq_def]
    simp [h]
  · intro ty loc n ve be ctx env err h
    rw [evaluateExpr.eq_def]
    simp [h]
  · exact fun e ctx env err h => evaluateExpr_error_location e ctx env err h

/-- Witness for C5: an unbound-variable error from the first argument is
forwarded unchanged by the argument list. -/
theorem evaluateExpr_total_and_forwards_errors_witness :
    evalArgs [Expr.varRef .value [0] "x"] ⟨0, [], "", []⟩ [] =
      .error ⟨"Unbound variable \"x\".", [0]⟩ :=
  evaluateExpr_total_and_forwards_errors.2.1 (Expr.varRef .value [0] "x") []
    ⟨0, [], "", []⟩ [] ⟨"Unbound variable \"x\".", [0]⟩
    (by simp [evaluateExpr, lookupKey])

/-- C6: for every literal expression (a JSON scalar or the explicit
literal-escape form), compilation succeeds and the evaluator returns the
literal value at every `RuntimeContext`, independent of zoom or feature
data. -/
theorem compileExpression_literal (v w : JsonValue)
    (h : literalValueOf v = some w) :
    (compileExpression v none).isSuccessB = true ∧
    ∀ ctx, (compileExpression v none).evalAt ctx = some (.ok w) := by
  cases v with
  | null =>
      simp only [literalValueOf, Option.some.injEq] at h
      subst h
      exact ⟨by simp [compileExpression, parseExpression, parseNode,
          CompileResult.isSuccessB],
        fun ctx => by simp [compileExpression, parseExpression, parseNode,
          CompileResult.evalAt, evaluateExpr]⟩
  | bool b =>
      simp only [literalValueOf, Option.some.injEq] at h
      subst h
      exact ⟨by simp [compileExpression, parseExpression, parseNode,
          CompileResult.isSuccessB],
        fun ctx => by simp [compileExpression, parseExpression, parseNode,
          CompileResult.evalAt, evaluateExpr]⟩
  | num n =>
      simp only [literalValueOf, Option.some.injEq] at h
      subst h
      exact ⟨by simp [compileExpression, parseExpression, parseNode,
          CompileResult.isSuccessB],
        fun ctx => by simp [compileExpression, parseExpression, parseNode,
          CompileResult.evalAt, evaluateExpr]⟩
  | str s =>
      simp only [literalValueOf, Option.some.injEq] at h
      subst h
      exact ⟨by simp [compileExpression, parseExpression, parseNode,
          lookupScope, CompileResult.isSuccessB],
        fun ctx => by simp [compileExpression, parseExpression, parseNode,
          lookupScope, CompileResult.evalAt, evaluateExpr]⟩
  | obj kvs => simp [literalValueOf] at h
  | arr xs =>
      simp only [literalValueOf] at h
      split at h
      · rename_i s w'
        split at h
        · rename_i hs
          rw [beq_iff_eq] at hs
          subst hs
          simp only [Option.some.injEq] at h
          subst h
          exact ⟨by simp [compileExpression, parseExpression, parseNode,
              CompileResult.isSuccessB],
            fun ctx => by simp [compileExpression, parseExpression, parseNode,
              CompileResult.evalAt, evaluateExpr]⟩
        · simp at h
      · simp at h

/-- Witness for C6 at the concrete literal input `3`. -/
theorem compileExpression_literal_witness :
    (compileExpression (.num 3) none).isSuccessB = true ∧
    ∀ ctx, (compileExpression (.num 3) none).evalAt ctx =
      some (.ok (.num 3)) :=
  compileExpression_literal (.num 3) (.num 3) rfl

/-- The classifier's `isZoomConstant` agrees with the absence of a
zoom-referencing subtree. -/
theorem isZoomConstant_eq_no_zoom_subtree (e : Expr) :
    isZoomConstant e = !((subexprs e).any isZoomRefNode) := by
  apply isZoomConstant.induct
    (fun e => isZoomConstant e = !((subexprs e).any isZoomRefNode))
    (fun es => allZoomConstant es = !((subexprsList es).any isZoomRefNode))
  all_goals intros
  all_goals simp_all [isZoomConstant, allZoomConstant, subexprs, subexprsList,
    isZoomRefNode, List.any_append, Bool.not_or]

/-- The classifier's `isFeatureConstant` agrees with the absence of a
feature-data-accessing subtree. -/
theorem isFeatureConstant_eq_no_feature_subtree (e : Expr) :
    isFeatureConstant e = !((subexprs e).any isFeatureRefNode) := by
  apply isFeatureConstant.induct
    (fun e => isFeatureConstant e = !((subexprs e).any isFeatureRefNode))
    (fun es => allFeatureConstant es = !((subexprsList es).any isFeatureRefNode))
  all_goals intros
  all_goals simp_all [isFeatureConstant, allFeatureConstant, subexprs,
    subexprsList, isFeatureRefNode, List.any_append, Bool.not_or]

/-- C7: for every parsed expression, `isZoomConstant` is false iff some
reachable subtree references zoom (a zoom-dependent operator call), and
`isFeatureConstant` is false iff some reachable subtree accesses
feature-property, geometry-type or feature-state data; both are pure
structural recursions over the AST. -/
theorem classifier_flags_characterised (e : Expr) :
    (isZoomConstant e = false ↔ ∃ s ∈ subexprs e, isZoomRefNode s = true) ∧
    (isFeatureConstant e = false ↔ ∃ s ∈ subexprs e, isFeatureRefNode s = true) := by
  constructor
  · rw [isZoomConstant_eq_no_zoom_subtree]
    simp [List.any_eq_true]
  · rw [isFeatureConstant_eq_no_feature_subtree]
    simp [List.any_eq_true]

/-- Witness for C4 at the concrete input `["+", 1, 2]`. -/
theorem compileExpression_deterministic_witness :
    (compileExpression (.arr [.str "+", .num 1, .num 2]) none).resultType =
      (compileExpression (.arr [.str "+", .num 1, .num 2]) none).resultType ∧
    (compileExpression (.arr [.str "+", .num 1, .num 2]) none).zoomFlag =
      (compileExpression (.arr [.str "+", .num 1, .num 2]) none).zoomFlag ∧
    (compileExpression (.arr [.str "+", .num 1, .num 2]) none).featureFlag =
      (compileExpression (.arr [.str "+", .num 1, .num 2]) none).featureFlag ∧
    ∀ ctx, (compileExpression (.arr [.str "+", .num 1, .num 2]) none).evalAt ctx =
      (compileExpression (.arr [.str "+", .num 1, .num 2]) none).evalAt ctx :=
  compileExpression_deterministic (.arr [.str "+", .num 1, .num 2]) none _ _ rfl rfl


/-- When `firstMismatch` finds nothing, every zipped argument/parameter
pair is compatible. -/
theorem firstMismatch_none_all_compatible : ∀ (args : List Expr) (ts : List Ty),
    firstMismatch args ts = none →
    ∀ p ∈ List.zip (args.map Expr.ty) ts, isCompatible p.1 p.2 = true := by
  intro args
  induction args with
  | nil => intro ts h p hp; simp at hp
  | cons a as ih =>
      intro ts h p hp
      cases ts with
      | nil => simp at hp
      | cons t ts' =>
          simp only [firstMismatch] at h
          by_cases hc : isCompatible a.ty t = true
          · rw [if_pos hc] at h
            simp only [List.map_cons, List.zip_cons_cons, List.mem_cons] at hp
            rcases hp with hp | hp
            · subst hp; exact hc
            · exact ih ts' h p hp
          · rw [if_neg hc] at h
            simp at h
  
/-- A pair returned by `firstMismatch` is a genuine offender: the
argument occurs in the list and is incompatible with its expected type. -/
theorem firstMismatch_some_spec : ∀ (args : List Expr) (ts : List Ty) (a : Expr) (t : Ty),
    firstMismatch args ts = some (a, t) →
    a ∈ args ∧ isCompatible a.ty t = false := by
  intro args
  induction args with
  | nil => intro ts a t h; cases ts <;> simp [firstMismatch] at h
  | cons x xs ih =>
      intro ts a t h
      cases ts with
      | nil => simp [firstMismatch] at h
      | cons u ts' =>
          simp only [firstMismatch] at h
          by_cases hc : isCompatible x.ty u = true
          · rw [if_pos hc] at h
            obtain ⟨hm, hcomp⟩ := ih ts' a t h
            exact ⟨List.mem_cons_of_mem _ hm, hcomp⟩
          · rw [if_neg hc] at h
            simp only [Option.some.injEq, Prod.mk.injEq] at h
            obtain ⟨h1, h2⟩ := h
            subst h1; subst h2
            exact ⟨List.mem_cons_self _ _, by simpa using hc⟩

/-- C8: overload resolution selects the first signature (in declaration
order) compatible with the argument count and types; when none matches,
the diagnostic is an arity error if no signature has a matching arity,
and otherwise a type-mismatch error citing the expected and actual types
at the offending argument's location. -/
theorem overload_resolution_characterised :
    (∀ (overloads : List Signature) (argTypes : List Ty) (i : Nat) (sig : Signature),
      overloads.get? i = some sig → sigMatches sig argTypes = true →
      (∀ (j : Nat) (sg : Signature), j < i → overloads.get? j = some sg →
        sigMatches sg argTypes = false) →
      resolveOverload overloads argTypes = some sig) ∧
    (∀ (op : String) (overloads : List Signature) (args : List Expr) (opLoc : Loc),
      resolveOverload overloads (args.map Expr.ty) = none →
      (∀ s ∈ overloads, lengthMatches s args.length = false) →
      overloadError op overloads args opLoc =
        ⟨arityMessage op overloads args.length, opLoc⟩) ∧
    (∀ (op : String) (overloads : List Signature) (args : List Expr)
        (opLoc : Loc) (sig : Signature),
      resolveOverload overloads (args.map Expr.ty) = none →
      overloads.find? (fun s => lengthMatches s args.length) = some sig →
      ∃ (a : Expr) (t : Ty), a ∈ args ∧ isCompatible a.ty t = false ∧
        firstMismatch args (expectedArgTypes sig args.length) = some (a, t) ∧
        overloadError op overloads args opLoc =
          ⟨typeMismatchMessage t a.ty, a.loc⟩) := by
  refine ⟨?first, ?arity, ?mismatch⟩
  case first =>
    intro overloads argTypes i sig hget hmatch hprev
    induction overloads generalizing i with
    | nil => simp at hget
    | cons s rest ih =>
        cases i with
        | zero =>
            simp only [List.get?] at hget
            injection hget with hget
            subst hget
            simp [resolveOverload, List.find?, hmatch]
        | succ i' =>
            have h0 : sigMatches s argTypes = false :=
              hprev 0 s (Nat.succ_pos _) rfl
            have : resolveOverload rest argTypes = some sig := by
              exact ih i' hget (fun j sg hj hg => hprev (j+1) sg (by omega) hg)
            simpa [resolveOverload, List.find?, h0] using this
  case arity =>
    intro op overloads args opLoc hnone hlen
    have hfind : overloads.find? (fun s => lengthMatches s args.length) = none := by
      rw [List.find?_eq_none]
      intro x hx
      simp [hlen x hx]
    simp [overloadError, hfind]
  case mismatch =>
    intro op overloads args opLoc sig hnone hfind
    have hsigmem : sig ∈ overloads := List.mem_of_find?_eq_some hfind
    have hlen : lengthMatches sig args.length = true := by
      have := List.find?_some hfind
      simpa using this
    have hsf : sigMatches sig (args.map Expr.ty) = false := by
      rw [resolveOverload, List.find?_eq_none] at hnone
      simpa using hnone sig hsigmem
    have hfm : firstMismatch args (expectedArgTypes sig args.length) ≠ none := by
      intro hno
      have hall := firstMismatch_none_all_compatible args _ hno
      have : sigMatches sig (args.map Expr.ty) = true := by
        rw [sigMatches]
        simp only [List.length_map, hlen, Bool.true_and]
        rw [List.all_eq_true]
        exact hall
      simp [this] at hsf
    cases hfm2 : firstMismatch args (expectedArgTypes sig args.length) with
    | none => exact absurd hfm2 hfm
    | some p =>
        obtain ⟨a, t⟩ := p
        obtain ⟨hmem, hcomp⟩ := firstMismatch_some_spec args _ a t hfm2
        exact ⟨a, t, hmem, hcomp, rfl, by simp [overloadError, hfind, hfm2]⟩

/-- Witness for C8: declaration order decides between the two matching
arities of `==` — the string overload is selected for string arguments. -/
theorem overload_resolution_characterised_witness :
    resolveOverload [⟨[.number, .number], none, .boolean⟩,
        ⟨[.string, .string], none, .boolean⟩] [.string, .string] =
      some ⟨[.string, .string], none, .boolean⟩ :=
  overload_resolution_characterised.1
    [⟨[.number, .number], none, .boolean⟩, ⟨[.string, .string], none, .boolean⟩]
    [.string, .string] 1 ⟨[.string, .string], none, .boolean⟩
    rfl (by decide)
    (fun j sg hj hg => by
      have hj0 : j = 0 := by omega
      subst hj0
      simp only [List.get?] at hg
      injection hg with hg
      subst hg
      decide)

/-- C9: for every anchor, shaped icon, layer, text-fit mode and rotation,
`getIconQuads` returns exactly one `SymbolQuad`, whose texture rectangle
is the icon's texture rectangle padded by one unit on each side. -/
theorem getIconQuads_single_padded_quad (shapedIcon : PositionedIcon)
    (layout : IconLayout) (shapedText : Option Shaping)
    (iconRotate sinA cosA : ℚ) :
    ∃ q : SymbolQuad,
      getIconQuads shapedIcon layout shapedText iconRotate sinA cosA = [q] ∧
      q.tex = ⟨shapedIcon.image.textureRect.x - 1,
               shapedIcon.image.textureRect.y - 1,
               shapedIcon.image.textureRect.w + 2,
               shapedIcon.image.textureRect.h + 2⟩ := by
  cases shapedText <;>
    simp only [getIconQuads] <;>
    split_ifs <;>
    exact ⟨_, rfl, by norm_num⟩

/-- C10: after `loadTile` returns, the uid is out of `loading[source]`
and in `loaded[source]` (never left in both), and the callback ran
exactly once with a null error; `removeTile` deletes only the named
entry of `loaded`, leaves all of `loading` and every other `loaded`
entry unchanged, and is a no-op for an absent uid. -/
theorem rasterDEM_load_remove (st : RasterDEMTileWorkerSource)
    (source uid : String) :
    (lookupTile (loadTile st source uid).state.loading source uid = none) ∧
    (lookupTile (loadTile st source uid).state.loaded source uid = some ⟨uid⟩) ∧
    ((loadTile st source uid).callbackErrs = [none]) ∧
    ((removeTile st source uid).loading = st.loading) ∧
    (lookupTile (removeTile st source uid).loaded source uid = none) ∧
    (∀ s u : String, s ≠ source ∨ u ≠ uid →
      lookupTile (removeTile st source uid).loaded s u =
        lookupTile st.loaded s u) ∧
    (lookupTile st.loaded source uid = none → removeTile st source uid = st) := by
  refine ⟨?_, ?_, rfl, ?_, ?_, ?_, ?_⟩
  · simp [loadTile, lookupTile, setSource, setTile]
  · simp [loadTile, lookupTile, setSource, setTile]
  · unfold removeTile
    cases st.loaded source <;> simp
    split_ifs <;> rfl
  · unfold removeTile
    cases h : st.loaded source with
    | none => simp [lookupTile, h]
    | some inner =>
        dsimp only
        split_ifs with hs
        · simp [lookupTile, setSource, setTile]
        · simp [lookupTile, h, Option.isSome] at hs ⊢
          cases hi : inner uid <;> simp_all
  · intro s u hsu
    unfold removeTile
    cases h : st.loaded source with
    | none => rfl
    | some inner =>
        dsimp only
        split_ifs with hs
        · simp only [lookupTile, setSource, setTile]
          rcases hsu with hne | hne
          · rw [if_neg hne]
          · by_cases hss : s = source
            · subst hss
              rw [if_pos rfl, h]
              simp [setTile, hne]
            · rw [if_neg hss]
        · rfl
  · intro hn
    unfold removeTile
    cases h : st.loaded source with
    | none => rfl
    | some inner =>
        rw [lookupTile, h] at hn
        dsimp only at hn ⊢
        simp [hn]

/-- Witness for C10 at a concrete state: removing tile "1" of source "a"
leaves the entry ("a", "2") unchanged, and removing an absent tile
changes nothing. -/
theorem rasterDEM_load_remove_witness :
    lookupTile (removeTile demoState "a" "1").loaded "a" "2" =
      lookupTile demoState.loaded "a" "2" ∧
    removeTile demoState "b" "9" = demoState :=
  ⟨(rasterDEM_load_remove demoState "a" "1").2.2.2.2.2.1 "a" "2"
      (Or.inr (by decide)),
   (rasterDEM_load_remove demoState "b" "9").2.2.2.2.2.2 (by decide)⟩

end MapboxGL
